import Mathlib

/-!
Verification of `src/plotter.py` (log-file parser and plot renderer).

Modelling conventions:
* A file is a list of lines, each line a `List Char` (Python iterates the open
  file line by line; the regex pattern contains no `$` anchor and its classes
  cannot match a newline, so stripping trailing newlines does not affect any
  match or captured group).
* Python numbers are modelled exactly: `int` as `Nat` (the `(\d+)` captures are
  unsigned), `float` as `Frac`, an exact unreduced fraction of integers.  The
  script only ever multiplies, adds and divides values parsed from decimal
  literals, so exact rational arithmetic reproduces the formulas of the code;
  `Frac` is kept unnormalised so that every definition is kernel-executable.
* `re.match` anchors at the start of the line only.  In the pattern
  `step:(\d+)/\d+ val_loss:([\d.]+) train_time:(\d+)ms step_avg:([\d.]+)ms`
  every group built from a character class is followed by a literal character
  that is outside that class (`/`, space, `m`), so the backtracking semantics of
  the regex coincide with maximal-munch scanning: the matcher below takes the
  longest class run for each group and then demands the following literal.
* `matplotlib` calls are modelled by recording the data handed to them: each
  figure becomes a `Chart` value (the plotted series, the horizontal reference
  line with its style, the decoration strings and the save path), and `savefig`
  becomes an update of an explicit file-system state.
-/

deriving instance DecidableEq for Except

namespace Plotter

/-- Exact rational number, kept as an unreduced `num / den` pair so that all
arithmetic is structural and kernel-executable.  All numbers occurring in the
script are nonnegative with nonzero denominators; the operations below are the
exact-field operations on such fractions. -/
structure Frac where
  num : Int
  den : Int
deriving DecidableEq, Repr

instance (n : Nat) : OfNat Frac n := ⟨⟨Int.ofNat n, 1⟩⟩

instance : OfScientific Frac :=
  ⟨fun m b e => if b then ⟨Int.ofNat m, Int.ofNat (10 ^ e)⟩ else ⟨Int.ofNat (m * 10 ^ e), 1⟩⟩

instance : Add Frac := ⟨fun a b => ⟨a.num * b.den + b.num * a.den, a.den * b.den⟩⟩

instance : Mul Frac := ⟨fun a b => ⟨a.num * b.num, a.den * b.den⟩⟩

instance : Div Frac := ⟨fun a b => ⟨a.num * b.den, a.den * b.num⟩⟩

/-- Embed a natural number (a Python `int`) as a `Frac`. -/
def Frac.ofN (n : Nat) : Frac := ⟨Int.ofNat n, 1⟩

/-- The character class `\d` of the pattern (ASCII digits; the log format is
ASCII). -/
def isDigitChar (c : Char) : Bool := c.isDigit

/-- The character class `[\d.]` of the pattern. -/
def isDigitDot (c : Char) : Bool := c.isDigit || c = '.'

/-- Consume an exact literal: `dropLit lit cs = some rest` iff `cs = lit ++ rest`. -/
def dropLit : List Char → List Char → Option (List Char)
  | [], cs => some cs
  | _ :: _, [] => none
  | l :: ls, c :: cs => if c = l then dropLit ls cs else none

/-- Consume a nonempty maximal run of characters satisfying `p` (a `+`-group of
the pattern; see the header note on why maximal munch is faithful here). -/
def grp (p : Char → Bool) (cs : List Char) : Option (List Char × List Char) :=
  let g := cs.takeWhile p
  if g = [] then none else some (g, cs.dropWhile p)

/-- The five class runs of the pattern: the four captured groups
`(\d+) ([\d.]+) (\d+) ([\d.]+)` plus the uncaptured total `/\d+`. -/
structure LineGroups where
  g1 : List Char
  gTot : List Char
  g2 : List Char
  g3 : List Char
  g4 : List Char
deriving DecidableEq, Repr

/-- The literal fragments of the pattern. -/
def litStep : List Char := ['s', 't', 'e', 'p', ':']

/-- Literal fragment between the step and total groups. -/
def litSlash : List Char := ['/']

/-- Literal fragment before the val_loss group. -/
def litValLoss : List Char := [' ', 'v', 'a', 'l', '_', 'l', 'o', 's', 's', ':']

/-- Literal fragment before the train_time group. -/
def litTrainTime : List Char := [' ', 't', 'r', 'a', 'i', 'n', '_', 't', 'i', 'm', 'e', ':']

/-- Literal fragment between the train_time and step_avg groups. -/
def litMsStepAvg : List Char := ['m', 's', ' ', 's', 't', 'e', 'p', '_', 'a', 'v', 'g', ':']

/-- Trailing literal fragment of the pattern. -/
def litMs : List Char := ['m', 's']

/-- `re.match` of the fixed pattern against a line: anchored at the start of
the line, free at the end.  Returns the groups and the uninspected tail. -/
def matchLineAux (cs : List Char) : Option (LineGroups × List Char) :=
  (dropLit litStep cs).bind fun cs =>
  (grp isDigitChar cs).bind fun s1 =>
  (dropLit litSlash s1.2).bind fun cs =>
  (grp isDigitChar cs).bind fun st =>
  (dropLit litValLoss st.2).bind fun cs =>
  (grp isDigitDot cs).bind fun s2 =>
  (dropLit litTrainTime s2.2).bind fun cs =>
  (grp isDigitChar cs).bind fun s3 =>
  (dropLit litMsStepAvg s3.2).bind fun cs =>
  (grp isDigitDot cs).bind fun s4 =>
  (dropLit litMs s4.2).map fun rest =>
  (⟨s1.1, st.1, s2.1, s3.1, s4.1⟩, rest)

/-- The group values extracted by `re.match` on a line (`None` on no match). -/
def matchLine (cs : List Char) : Option LineGroups :=
  (matchLineAux cs).map Prod.fst

/-- Rebuild the matched portion of a line from its group values. -/
def formatLine (g : LineGroups) : List Char :=
  litStep ++ g.g1 ++ litSlash ++ g.gTot ++ litValLoss ++ g.g2 ++
    litTrainTime ++ g.g3 ++ litMsStepAvg ++ g.g4 ++ litMs

/-- Well-formedness of group values: exactly the strings the pattern's groups
can capture. -/
def WFGroups (g : LineGroups) : Prop :=
  g.g1 ≠ [] ∧ (∀ c ∈ g.g1, isDigitChar c = true) ∧
  g.gTot ≠ [] ∧ (∀ c ∈ g.gTot, isDigitChar c = true) ∧
  g.g2 ≠ [] ∧ (∀ c ∈ g.g2, isDigitDot c = true) ∧
  g.g3 ≠ [] ∧ (∀ c ∈ g.g3, isDigitChar c = true) ∧
  g.g4 ≠ [] ∧ (∀ c ∈ g.g4, isDigitDot c = true)

/-- Python `int` on a nonempty digit string. -/
def digitsToNat (l : List Char) : Nat :=
  l.foldl (fun n c => 10 * n + (c.toNat - 48)) 0

/-- Python `float` applied to a string over the alphabet `[\d.]`: it succeeds
on `digits`, `digits.`, `.digits` and `digits.digits` (one optional dot, at
least one digit) and raises `ValueError` otherwise (empty string, a lone dot,
or more than one dot).  Exponents, signs and words like `inf` cannot occur in a
`[\d.]+` capture, so this covers every reachable input. -/
def pyFloat (l : List Char) : Option Frac :=
  match l.dropWhile isDigitChar with
  | [] =>
    if l.takeWhile isDigitChar = [] then none
    else some (Frac.ofN (digitsToNat (l.takeWhile isDigitChar)))
  | c :: fp =>
    if c = '.' then
      if fp.all isDigitChar then
        if l.takeWhile isDigitChar = [] && fp = [] then none
        else some (Frac.ofN (digitsToNat (l.takeWhile isDigitChar)) +
          Frac.ofN (digitsToNat fp) / Frac.ofN (10 ^ fp.length))
      else none
    else none

/-- `parse_log_file`, on the already-read lines of the file.  Faithful to the
Python loop: each matching line evaluates `int(group 1)` (which cannot fail),
then `float(group 2)`, then `float(group 4)` (each of which raises `ValueError`
on a malformed capture, modelled as `Except.error`), and appends
`step`, `loss` and `avg_time * step` to the three lists. -/
def parseLogFile : List (List Char) → Except String (List Nat × List Frac × List Frac)
  | [] => .ok ([], [], [])
  | line :: rest =>
    match matchLine line with
    | none => parseLogFile rest
    | some g =>
      match pyFloat g.g2 with
      | none => .error ("ValueError")
      | some loss =>
        match pyFloat g.g4 with
        | none => .error ("ValueError")
        | some avg =>
          match parseLogFile rest with
          | .error e => .error e
          | .ok (steps, losses, times) =>
            .ok (digitsToNat g.g1 :: steps, loss :: losses, (avg * Frac.ofN (digitsToNat g.g1)) :: times)

/-- One matching line's parsed fields. -/
structure Record where
  step : Nat
  loss : Frac
  avg : Frac
deriving DecidableEq, Repr

/-- The per-line records underlying `parse_log_file` (same traversal, same
error behaviour), used to state per-index properties of the three lists. -/
def parseRecords : List (List Char) → Except String (List Record)
  | [] => .ok []
  | line :: rest =>
    match matchLine line with
    | none => parseRecords rest
    | some g =>
      match pyFloat g.g2 with
      | none => .error ("ValueError")
      | some loss =>
        match pyFloat g.g4 with
        | none => .error ("ValueError")
        | some avg =>
          match parseRecords rest with
          | .error e => .error e
          | .ok rs => .ok (⟨digitsToNat g.g1, loss, avg⟩ :: rs)

/-- Number of lines of the file matching the pattern. -/
def countMatching (file : List (List Char)) : Nat :=
  file.countP (fun l => (matchLine l).isSome)

/-- A line on which the parser cannot raise: either it does not match, or both
float captures are well formed. -/
def goodLine (l : List Char) : Bool :=
  match matchLine l with
  | none => true
  | some g => (pyFloat g.g2).isSome && (pyFloat g.g4).isSome

/-- One `plt.plot(xs, ys, label=label, linewidth=2)` call. -/
structure PlotCmd where
  xs : List Frac
  ys : List Frac
  label : String
  linewidth : Frac
deriving DecidableEq, Repr

/-- One `plt.axhline(...)` call: the horizontal reference line and its style. -/
structure HLine where
  y : Frac
  color : String
  linestyle : String
  linewidth : Option Frac
  label : String
deriving DecidableEq, Repr

/-- One rendered figure: the plotted series, the reference line, the
decoration strings and the path passed to `savefig`. -/
structure Chart where
  plots : List PlotCmd
  hline : HLine
  xlabel : String
  ylabel : String
  title : String
  path : String
deriving DecidableEq, Repr

/-- The file-system state touched by the renderer: the set of existing
directories and the image files (path paired with the figure written there). -/
structure FS where
  dirs : List String
  images : List (String × Chart)
deriving DecidableEq, Repr

/-- The observable outcome of one `create_plots` call: the final file system,
the save paths in write order, and the two figures. -/
structure RunResult where
  fs : FS
  writes : List String
  chart1 : Chart
  chart2 : Chart
deriving DecidableEq, Repr

/-- Create a directory if absent (no error if present). -/
def insertDir (ds : List String) (d : String) : List String :=
  if d ∈ ds then ds else ds ++ [d]

/-- Split a character list at every `/` (the components of a path). -/
def splitSlash : List Char → List (List Char)
  | [] => [[]]
  | c :: cs =>
    if c = '/' then [] :: splitSlash cs
    else
      match splitSlash cs with
      | [] => [[c]]
      | g :: gs => (c :: g) :: gs

/-- All the ancestor paths of a `/`-separated path, shortest first. -/
def dirChainAux (cur : String) : List String → List String
  | [] => []
  | c :: rest => (cur ++ c) :: dirChainAux (cur ++ c ++ "/") rest

/-- `dirChain "a/b"` is `["a", "a/b"]`: the directories `os.makedirs` ensures. -/
def dirChain (p : String) : List String :=
  dirChainAux ("") ((splitSlash p.toList).map (fun cs => String.mk cs))

/-- `os.makedirs(p, exist_ok=True)`: create the path and its missing parents;
never an error when they already exist. -/
def makedirs (fs : FS) (p : String) : FS :=
  ⟨(dirChain p).foldl insertDir fs.dirs, fs.images⟩

/-- Write or overwrite the image at `p` (the first binding for `p` is replaced,
a missing binding is appended). -/
def setAssoc : List (String × Chart) → String → Chart → List (String × Chart)
  | [], p, c => [(p, c)]
  | (q, d) :: rest, p, c => if q = p then (p, c) :: rest else (q, d) :: setAssoc rest p c

/-- Look up the image stored at `p`. -/
def lookupAssoc : List (String × Chart) → String → Option Chart
  | [], _ => none
  | (q, d) :: rest, p => if q = p then some d else lookupAssoc rest p

/-- The body of the first `for` loop of `create_plots` for one
`(log_file, label)` pair: read the file (propagating a file-access error),
parse it, and plot losses against steps. -/
def seriesVsSteps (read : String → Option (List (List Char))) (pr : String × String) :
    Except String PlotCmd :=
  match read pr.1 with
  | none => .error ("FileNotFoundError")
  | some lines =>
    match parseLogFile lines with
    | .error e => .error e
    | .ok (steps, losses, _) => .ok ⟨steps.map Frac.ofN, losses, pr.2, 2⟩

/-- The body of the second `for` loop of `create_plots` for one pair: read and
parse again, convert cumulative times from milliseconds to hours
(`np.array(times) / (1000 * 60 * 60)`, elementwise), and plot losses against
hours. -/
def seriesVsTime (read : String → Option (List (List Char))) (pr : String × String) :
    Except String PlotCmd :=
  match read pr.1 with
  | none => .error ("FileNotFoundError")
  | some lines =>
    match parseLogFile lines with
    | .error e => .error e
    | .ok (_, losses, times) =>
      .ok ⟨times.map (fun t => t / (1000 * 60 * 60)), losses, pr.2, 2⟩

/-- Run an effectful body over a list, stopping at the first error (the Python
`for` loop with exception propagation). -/
def mapExcept {α β : Type} (f : α → Except String β) : List α → Except String (List β)
  | [] => .ok []
  | a :: as =>
    match f a with
    | .error e => .error e
    | .ok b =>
      match mapExcept f as with
      | .error e => .error e
      | .ok bs => .ok (b :: bs)

/-- The first figure: losses against steps, grey dotted threshold line at 3.28
with linewidth 2, fixed decorations, saved as `validation_vs_steps.png`. -/
def chart1Of (ps : List PlotCmd) (output_dir : String) : Chart :=
  ⟨ps, ⟨3.28, "grey", ":", some 2, "Threshold"⟩,
    "Training Steps", "Validation Loss", "Validation Loss vs Steps",
    output_dir ++ "/validation_vs_steps.png"⟩

/-- The second figure: losses against hours, red dotted threshold line at 3.28
(default linewidth), fixed decorations, saved as `validation_vs_time.png`. -/
def chart2Of (ps : List PlotCmd) (output_dir : String) : Chart :=
  ⟨ps, ⟨3.28, "r", ":", none, "Threshold"⟩,
    "Training Time (hours)", "Validation Loss", "Validation Loss vs Time",
    output_dir ++ "/validation_vs_time.png"⟩

/-- `create_plots(log_files, labels, output_dir='plots')`.  `zip` pairs the two
input lists, truncating to the shorter.  The first figure is written before the
second pass starts; an error in either pass aborts the call. -/
def createPlots (fsIn : FS) (read : String → Option (List (List Char)))
    (log_files labels : List String) (output_dir : String := "plots") :
    Except String RunResult :=
  let fs1 := makedirs fsIn output_dir
  match mapExcept (seriesVsSteps read) (log_files.zip labels) with
  | .error e => .error e
  | .ok ps1 =>
    let c1 := chart1Of ps1 output_dir
    let fs2 : FS := ⟨fs1.dirs, setAssoc fs1.images c1.path c1⟩
    match mapExcept (seriesVsTime read) (log_files.zip labels) with
    | .error e => .error e
    | .ok ps2 =>
      let c2 := chart2Of ps2 output_dir
      let fs3 : FS := ⟨fs2.dirs, setAssoc fs2.images c2.path c2⟩
      .ok ⟨fs3, [c1.path, c2.path], c1, c2⟩

/-- A concrete well-formed log line (the spec's example scenario). -/
def line0 : List Char :=
  ("step:100/1000 val_loss:3.45 train_time:5000ms step_avg:50.0ms".toList)

/-- A concrete one-file file system for witnesses. -/
def read0 : String → Option (List (List Char)) :=
  fun f => if f = "a.txt" then some [line0] else none

/-- An initially empty file-system state. -/
def fs0 : FS := ⟨[], []⟩

/-- Whether Python `float` accepts a `[\d.]+` capture: at most one dot and at
least one digit. -/
def floatOk (l : List Char) : Bool :=
  decide (l.count '.' ≤ 1) && l.any isDigitChar

/-- A line the pattern matches whose `val_loss` capture `1.2.3` is not a valid
float literal, so `float(match.group(2))` raises `ValueError`. -/
def badLine : List Char :=
  ("step:1/1 val_loss:1.2.3 train_time:5ms step_avg:1.0ms".toList)

/-- The figure produced for `read0` by the first pass into directory `out`. -/
def c1fix : Chart :=
  ⟨[⟨[⟨100, 1⟩], [⟨345, 100⟩], "A", ⟨2, 1⟩⟩],
    ⟨⟨328, 100⟩, "grey", ":", some ⟨2, 1⟩, "Threshold"⟩,
    "Training Steps", "Validation Loss", "Validation Loss vs Steps",
    "out/validation_vs_steps.png"⟩

/-- The figure produced for `read0` by the second pass into directory `out`. -/
def c2fix : Chart :=
  ⟨[⟨[⟨50000, 36000000⟩], [⟨345, 100⟩], "A", ⟨2, 1⟩⟩],
    ⟨⟨328, 100⟩, "r", ":", none, "Threshold"⟩,
    "Training Time (hours)", "Validation Loss", "Validation Loss vs Time",
    "out/validation_vs_time.png"⟩

/-- The full outcome of `createPlots fs0 read0 ["a.txt"] ["A"] "out"`. -/
def r0 : RunResult :=
  ⟨⟨["out"], [("out/validation_vs_steps.png", c1fix), ("out/validation_vs_time.png", c2fix)]⟩,
    ["out/validation_vs_steps.png", "out/validation_vs_time.png"], c1fix, c2fix⟩

/-- The groups captured on `line0`. -/
def g0 : LineGroups :=
  ⟨['1', '0', '0'], ['1', '0', '0', '0'], ['3', '.', '4', '5'], ['5', '0', '0', '0'],
    ['5', '0', '.', '0']⟩

/-- A line the pattern does not match. -/
def noMatchLine : List Char := ("hello world".toList)

/-! ### Helper lemmas about the matching primitives -/

theorem dropLit_self (l r : List Char) : dropLit l (l ++ r) = some r := by
  induction l with
  | nil => rfl
  | cons c cs ih => simp [dropLit, ih]

theorem dropLit_eq_some (l cs r : List Char) (h : dropLit l cs = some r) : cs = l ++ r := by
  induction l generalizing cs with
  | nil => simpa [dropLit] using h
  | cons c cs' ih =>
    cases cs with
    | nil => simp [dropLit] at h
    | cons d ds =>
      simp only [dropLit] at h
      split at h
      next heq => simp [heq, ih ds h]
      next => exact absurd h (by simp)

theorem takeWhile_eq_of (p : Char → Bool) (g : List Char) (c : Char) (r : List Char)
    (hall : ∀ x ∈ g, p x = true) (hc : p c = false) :
    (g ++ c :: r).takeWhile p = g ∧ (g ++ c :: r).dropWhile p = c :: r := by
  induction g with
  | nil => simp [List.takeWhile, List.dropWhile, hc]
  | cons a as ih =>
    have ha : p a = true := hall a (by simp)
    have h2 := ih (fun x hx => hall x (by simp [hx]))
    simp [List.takeWhile, List.dropWhile, ha, h2.1, h2.2]

theorem grp_of_wf (p : Char → Bool) (g : List Char) (c : Char) (r : List Char)
    (hall : ∀ x ∈ g, p x = true) (hne : g ≠ []) (hc : p c = false) :
    grp p (g ++ c :: r) = some (g, c :: r) := by
  obtain ⟨h1, h2⟩ := takeWhile_eq_of p g c r hall hc
  simp [grp, h1, h2, hne]

theorem grp_eq_some (p : Char → Bool) (cs g r : List Char) (h : grp p cs = some (g, r)) :
    cs = g ++ r ∧ g ≠ [] ∧ (∀ x ∈ g, p x = true) := by
  simp only [grp] at h
  split at h
  next => exact absurd h (by simp)
  next hne =>
    obtain ⟨rfl, rfl⟩ : cs.takeWhile p = g ∧ cs.dropWhile p = r := by
      simpa using h
    refine ⟨(List.takeWhile_append_dropWhile p cs).symm, hne, ?_⟩
    intro x hx
    exact List.mem_takeWhile_imp hx

/-- Completeness of the matcher: on a line made of well-formed groups laid out
by the pattern, followed by anything at all, `re.match` succeeds and captures
exactly those groups. -/
theorem matchAux_format (g : LineGroups) (hwf : WFGroups g) (tail : List Char) :
    matchLineAux (formatLine g ++ tail) = some (g, tail) := by
  obtain ⟨g1, gT, g2, g3, g4⟩ := g
  obtain ⟨h1, h1d, ht, htd, h2, h2d, h3, h3d, h4, h4d⟩ := hwf
  have E : formatLine ⟨g1, gT, g2, g3, g4⟩ ++ tail =
      litStep ++ (g1 ++ '/' :: (gT ++ ' ' ::
        (['v', 'a', 'l', '_', 'l', 'o', 's', 's', ':'] ++ (g2 ++ ' ' ::
          (['t', 'r', 'a', 'i', 'n', '_', 't', 'i', 'm', 'e', ':'] ++ (g3 ++ 'm' ::
            (['s', ' ', 's', 't', 'e', 'p', '_', 'a', 'v', 'g', ':'] ++
              (g4 ++ 'm' :: 's' :: tail)))))))) := by
    simp [formatLine, litStep, litSlash, litValLoss, litTrainTime, litMsStepAvg, litMs,
      List.append_assoc]
  rw [E]
  unfold matchLineAux
  rw [dropLit_self]
  simp only [Option.some_bind']
  rw [grp_of_wf _ _ _ _ h1d h1 (by decide)]
  simp only [litSlash, dropLit, List.cons_append, List.nil_append, if_pos, Option.some_bind']
  rw [grp_of_wf _ _ _ _ htd ht (by decide)]
  simp only [litValLoss, dropLit, List.cons_append, List.nil_append, if_pos, Option.some_bind']
  rw [grp_of_wf _ _ _ _ h2d h2 (by decide)]
  simp only [litTrainTime, dropLit, List.cons_append, List.nil_append, if_pos, Option.some_bind']
  rw [grp_of_wf _ _ _ _ h3d h3 (by decide)]
  simp only [litMsStepAvg, dropLit, List.cons_append, List.nil_append, if_pos, Option.some_bind']
  rw [grp_of_wf _ _ _ _ h4d h4 (by decide)]
  simp [litMs, dropLit]

/-- Soundness of the matcher: a successful match decomposes the line into the
pattern's literals and well-formed groups, followed by the uninspected tail. -/
theorem matchAux_sound (cs : List Char) (g : LineGroups) (rest : List Char)
    (h : matchLineAux cs = some (g, rest)) :
    cs = formatLine g ++ rest ∧ WFGroups g := by
  obtain ⟨g1, gT, g2, g3, g4⟩ := g
  unfold matchLineAux at h
  simp only [Option.bind_eq_some, Option.map_eq_some'] at h
  obtain ⟨cs1, hd1, ⟨gg1, r1⟩, hg1, cs2, hd2, ⟨ggT, rT⟩, hgT, cs3, hd3, ⟨gg2, r2⟩, hg2,
    cs4, hd4, ⟨gg3, r3⟩, hg3, cs5, hd5, ⟨gg4, r4⟩, hg4, r5, hd6, heq⟩ := h
  simp only [Prod.mk.injEq, LineGroups.mk.injEq] at heq
  obtain ⟨⟨rfl, rfl, rfl, rfl, rfl⟩, rfl⟩ := heq
  obtain ⟨e1, hne1, hall1⟩ := grp_eq_some _ _ _ _ hg1
  obtain ⟨eT, hneT, hallT⟩ := grp_eq_some _ _ _ _ hgT
  obtain ⟨e2, hne2, hall2⟩ := grp_eq_some _ _ _ _ hg2
  obtain ⟨e3, hne3, hall3⟩ := grp_eq_some _ _ _ _ hg3
  obtain ⟨e4, hne4, hall4⟩ := grp_eq_some _ _ _ _ hg4
  have d1 := dropLit_eq_some _ _ _ hd1
  have d2 := dropLit_eq_some _ _ _ hd2
  have d3 := dropLit_eq_some _ _ _ hd3
  have d4 := dropLit_eq_some _ _ _ hd4
  have d5 := dropLit_eq_some _ _ _ hd5
  have d6 := dropLit_eq_some _ _ _ hd6
  subst d1 e1 d2 eT d3 e2 d4 e3 d5 e4 d6
  refine ⟨by simp [formatLine, List.append_assoc], ?_⟩
  exact ⟨hne1, hall1, hneT, hallT, hne2, hall2, hne3, hall3, hne4, hall4⟩

theorem matchLine_eq_some_iff (cs : List Char) (g : LineGroups) :
    matchLine cs = some g ↔ ∃ rest, matchLineAux cs = some (g, rest) := by
  unfold matchLine
  constructor
  · intro h
    obtain ⟨a, ha, he⟩ := Option.map_eq_some'.mp h
    subst he
    exact ⟨a.2, by rw [ha]⟩
  · rintro ⟨rest, ha⟩
    simp [ha]

/-! ### Properties of Python float on the captured substrings -/

theorem dropWhile_head_false (p : Char → Bool) (l : List Char) (c : Char) (fp : List Char)
    (h : l.dropWhile p = c :: fp) : p c = false := by
  induction l with
  | nil => simp [List.dropWhile] at h
  | cons a as ih =>
    by_cases hp : p a = true
    · rw [List.dropWhile_cons_of_pos hp] at h
      exact ih h
    · rw [List.dropWhile_cons_of_neg hp] at h
      obtain ⟨rfl, -⟩ := List.cons.injEq .. |>.mp h
      exact Bool.eq_false_iff.mpr hp

theorem pyFloat_isSome_prop (l : List Char) (halpha : ∀ c ∈ l, isDigitDot c = true) :
    (pyFloat l).isSome = true ↔ (l.count '.' ≤ 1 ∧ ∃ x ∈ l, isDigitChar x = true) := by
  have hsplit := List.takeWhile_append_dropWhile isDigitChar l
  have hip : ∀ x ∈ l.takeWhile isDigitChar, isDigitChar x = true :=
    fun x hx => List.mem_takeWhile_imp hx
  have hipcount : (l.takeWhile isDigitChar).count '.' = 0 := by
    rw [List.count_eq_zero]
    intro hmem
    have h5 := hip _ hmem
    simp [isDigitChar] at h5
  cases hrest : l.dropWhile isDigitChar with
  | nil =>
    have hl : l.takeWhile isDigitChar = l := by
      rw [hrest, List.append_nil] at hsplit
      exact hsplit
    have halld : ∀ c ∈ l, isDigitChar c = true := by
      rw [← hl]
      exact hip
    have hcount : l.count '.' = 0 := by
      rw [hl] at hipcount
      exact hipcount
    by_cases h0 : l = []
    · subst h0
      simp [pyFloat]
    · obtain ⟨c, hc⟩ := List.exists_mem_of_ne_nil l h0
      have hL : (pyFloat l).isSome = true := by
        simp [pyFloat, hrest, hl, h0]
      simp only [hL, true_iff]
      exact ⟨by omega, c, hc, halld c hc⟩
  | cons c fp =>
    have hcfalse : isDigitChar c = false := dropWhile_head_false _ _ _ _ hrest
    have hcfalse' : c.isDigit = false := hcfalse
    have hcl : c ∈ l := by
      rw [hrest] at hsplit
      rw [← hsplit]
      exact List.mem_append_right _ (by simp)
    have hcdot : c = '.' := by
      have h5 := halpha c hcl
      simp [isDigitDot, hcfalse'] at h5
      exact h5
    subst hcdot
    rw [hrest] at hsplit
    have hfmem : ∀ x ∈ fp, x ∈ l := by
      intro x hx
      rw [← hsplit]
      exact List.mem_append_right _ (by simp [hx])
    have hcount : l.count '.' = 1 + fp.count '.' := by
      rw [← hsplit, List.count_append, hipcount, List.count_cons_self]
      omega
    by_cases hfp : fp.all isDigitChar = true
    · have hfpcount : fp.count '.' = 0 := by
        rw [List.count_eq_zero]
        intro hmem
        have h5 := List.all_eq_true.mp hfp _ hmem
        simp [isDigitChar] at h5
      have hcount1 : l.count '.' = 1 := by omega
      by_cases hip0 : l.takeWhile isDigitChar = []
      · by_cases hfp0 : fp = []
        · have hldot : l = ['.'] := by
            rw [← hsplit, hip0, hfp0]
            rfl
          subst hldot
          decide
        · obtain ⟨x, hx⟩ := List.exists_mem_of_ne_nil _ hfp0
          have hxd := List.all_eq_true.mp hfp _ hx
          have hL : (pyFloat l).isSome = true := by
            simp [pyFloat, hrest, hfp, hip0, hfp0]
          simp only [hL, true_iff]
          exact ⟨by omega, x, hfmem x hx, hxd⟩
      · obtain ⟨x, hx⟩ := List.exists_mem_of_ne_nil _ hip0
        have hxd := hip _ hx
        have hxl : x ∈ l := by
          rw [← hsplit]
          exact List.mem_append_left _ hx
        have hL : (pyFloat l).isSome = true := by
          simp [pyFloat, hrest, hfp, hip0]
        simp only [hL, true_iff]
        exact ⟨by omega, x, hxl, hxd⟩
    · have hex : ∃ x ∈ fp, isDigitChar x = false := by
        by_contra hall
        push_neg at hall
        exact hfp (List.all_eq_true.mpr (fun x hx => by
          cases hxd : isDigitChar x
          · exact absurd hxd (by simpa using hall x hx)
          · rfl))
      obtain ⟨x, hxf, hxd⟩ := hex
      have hxd' : x.isDigit = false := hxd
      have hxdot : x = '.' := by
        have h5 := halpha x (hfmem x hxf)
        simp [isDigitDot, hxd'] at h5
        exact h5
      subst hxdot
      have hpos : 0 < fp.count '.' := List.count_pos_iff.mpr hxf
      have hc2 : ¬(l.count '.' ≤ 1) := by omega
      simp [pyFloat, hrest, hfp, hc2]

theorem pyFloat_isSome_iff (l : List Char) (halpha : ∀ c ∈ l, isDigitDot c = true) :
    (pyFloat l).isSome = floatOk l := by
  rw [Bool.eq_iff_iff, pyFloat_isSome_prop l halpha]
  simp [floatOk, List.any_eq_true]

/-! ### Agreement between the three-list parser and the record view -/

theorem parseLogFile_eq (file : List (List Char)) :
    parseLogFile file = (parseRecords file).map (fun rs =>
      (rs.map Record.step, rs.map Record.loss, rs.map (fun r => r.avg * Frac.ofN r.step))) := by
  induction file with
  | nil => rfl
  | cons line rest ih =>
    simp only [parseLogFile, parseRecords]
    cases hm : matchLine line with
    | none => simpa using ih
    | some g =>
      cases hf2 : pyFloat g.g2 with
      | none => simp [hf2, Except.map]
      | some loss =>
        cases hf4 : pyFloat g.g4 with
        | none => simp [hf2, hf4, Except.map]
        | some avg =>
          cases hrec : parseRecords rest with
          | error e => simp [hf2, hf4, ih, hrec, Except.map]
          | ok rs => simp [hf2, hf4, ih, hrec, Except.map]

/-! ### The claims about the parser -/

/-- C1 (amended): on a file none of whose matching lines carries a malformed
float capture, `parse_log_file` returns (no error) three sequences that are the
per-record projections - so all three have length exactly `K`, the number of
matching lines, and the cumulative-time entry of index `i` is the product
`step_avg[i] * step[i]` of that same record, not a running sum. -/
theorem parse_lengths_and_times (file : List (List Char))
    (h : ∀ l ∈ file, goodLine l = true) :
    parseLogFile file = (parseRecords file).map (fun rs =>
      (rs.map Record.step, rs.map Record.loss, rs.map (fun r => r.avg * Frac.ofN r.step))) ∧
    (parseRecords file).map List.length = .ok (countMatching file) ∧
    (parseLogFile file).map (fun t => (t.1.length, t.2.1.length, t.2.2.length)) =
      .ok (countMatching file, countMatching file, countMatching file) := by
  have hlen : (parseRecords file).map List.length = .ok (countMatching file) := by
    induction file with
    | nil => rfl
    | cons line rest ih =>
      have hl := h line (by simp)
      have ih2 := ih (fun l hl2 => h l (by simp [hl2]))
      simp only [parseRecords, countMatching, List.countP_cons]
      cases hm : matchLine line with
      | none =>
        simpa [hm, countMatching] using ih2
      | some g =>
        unfold goodLine at hl
        rw [hm] at hl
        obtain ⟨hf2, hf4⟩ := Bool.and_eq_true .. |>.mp hl
        obtain ⟨loss, hloss⟩ := Option.isSome_iff_exists.mp hf2
        obtain ⟨avg, havg⟩ := Option.isSome_iff_exists.mp hf4
        cases hrec : parseRecords rest with
        | error e => simp [hrec, Except.map] at ih2
        | ok rs =>
          rw [hrec] at ih2
          simp only [Except.map, Except.ok.injEq] at ih2
          simp [hloss, havg, hrec, Except.map, countMatching, ih2]
  refine ⟨parseLogFile_eq file, hlen, ?_⟩
  rw [parseLogFile_eq file]
  cases hrec : parseRecords file with
  | error e => rw [hrec] at hlen; simp [Except.map] at hlen
  | ok rs =>
    rw [hrec] at hlen
    simp only [Except.map, Except.ok.injEq] at hlen
    simp [Except.map, hlen]

/-- Witness for C1 at the spec's example line. -/
theorem parse_lengths_and_times_witness :
    parseLogFile [line0] = (parseRecords [line0]).map (fun rs =>
      (rs.map Record.step, rs.map Record.loss, rs.map (fun r => r.avg * Frac.ofN r.step))) ∧
    (parseRecords [line0]).map List.length = .ok (countMatching [line0]) ∧
    (parseLogFile [line0]).map (fun t => (t.1.length, t.2.1.length, t.2.2.length)) =
      .ok (countMatching [line0], countMatching [line0], countMatching [line0]) :=
  parse_lengths_and_times [line0] (by decide)

/-- C1 counterexample: a file whose single line matches the pattern, yet
`parse_log_file` raises `ValueError` instead of returning three length-1
sequences (the `val_loss` capture `1.2.3` is not a float literal). -/
theorem parse_error_despite_matching_line :
    countMatching [badLine] = 1 ∧ parseLogFile [badLine] = .error ("ValueError") := by
  decide

/-- C2 (amended): on every matching line the integer captures are nonempty
digit strings (so `int` always succeeds), while a float capture parses exactly
when it has at most one dot and at least one digit - so a matching line can
still raise a numeric-parse error (see the counterexample). -/
theorem captured_groups_parse (cs : List Char) (g : LineGroups) (h : matchLine cs = some g) :
    g.g1.isEmpty = false ∧ g.g1.all isDigitChar = true ∧
    g.g3.isEmpty = false ∧ g.g3.all isDigitChar = true ∧
    (pyFloat g.g2).isSome = floatOk g.g2 ∧
    (pyFloat g.g4).isSome = floatOk g.g4 := by
  obtain ⟨rest, haux⟩ := (matchLine_eq_some_iff cs g).mp h
  obtain ⟨-, h1, h1d, -, -, h2, h2d, h3, h3d, h4, h4d⟩ := matchAux_sound cs g rest haux
  refine ⟨by simpa [List.isEmpty_iff] using h1, List.all_eq_true.mpr h1d,
    by simpa [List.isEmpty_iff] using h3, List.all_eq_true.mpr h3d,
    pyFloat_isSome_iff _ h2d, pyFloat_isSome_iff _ h4d⟩

/-- Witness for C2 at the spec's example line. -/
theorem captured_groups_parse_witness :
    g0.g1.isEmpty = false ∧ g0.g1.all isDigitChar = true ∧
    g0.g3.isEmpty = false ∧ g0.g3.all isDigitChar = true ∧
    (pyFloat g0.g2).isSome = floatOk g0.g2 ∧
    (pyFloat g0.g4).isSome = floatOk g0.g4 :=
  captured_groups_parse line0 g0 (by decide)

/-- C2 counterexample: the pattern matches `badLine` (its `[\d.]+` class admits
`1.2.3`), but `float` rejects the captured substring, so the parser does raise
a numeric-parse error on a matching line. -/
theorem float_error_on_matching_line :
    matchLine badLine = some ⟨['1'], ['1'], ['1', '.', '2', '.', '3'], ['5'], ['1', '.', '0']⟩ ∧
    pyFloat ['1', '.', '2', '.', '3'] = none ∧
    parseLogFile [badLine] = .error ("ValueError") := by
  decide

/-- C3: a non-matching line contributes no entry and raises no error, and a
file all of whose lines fail to match (in particular the empty file) parses to
three empty sequences. -/
theorem nonmatching_lines_contribute_nothing :
    (∀ l file, matchLine l = none → parseLogFile (l :: file) = parseLogFile file) ∧
    (∀ file, (∀ l ∈ file, matchLine l = none) → parseLogFile file = .ok ([], [], [])) := by
  constructor
  · intro l file hm
    simp [parseLogFile, hm]
  · intro file h
    induction file with
    | nil => rfl
    | cons line rest ih =>
      have hl := h line (by simp)
      simp [parseLogFile, hl, ih (fun l hl2 => h l (by simp [hl2]))]

/-- Witness for C3: a blank-ish line is skipped, and a fully non-matching file
yields three empty lists. -/
theorem nonmatching_lines_contribute_nothing_witness :
    parseLogFile (noMatchLine :: [line0]) = parseLogFile [line0] ∧
    parseLogFile [noMatchLine] = .ok ([], [], []) :=
  ⟨nonmatching_lines_contribute_nothing.1 noMatchLine [line0] (by decide),
    nonmatching_lines_contribute_nothing.2 [noMatchLine] (by decide)⟩

/-- C9: the fields captured from a matching line, laid out again by the
pattern's own format, match again to exactly the same fields (so the same
step, loss and step-average values are extracted). -/
theorem parse_format_roundtrip (cs : List Char) (g : LineGroups) (h : matchLine cs = some g) :
    matchLine (formatLine g) = some g := by
  obtain ⟨rest, haux⟩ := (matchLine_eq_some_iff cs g).mp h
  obtain ⟨-, hwf⟩ := matchAux_sound cs g rest haux
  have h2 := matchAux_format g hwf []
  rw [List.append_nil] at h2
  simp [matchLine, h2]

/-- Witness for C9 at the spec's example line. -/
theorem parse_format_roundtrip_witness : matchLine (formatLine g0) = some g0 :=
  parse_format_roundtrip line0 g0 (by decide)

/-- C10: the pattern is anchored at the start of the line only - a match
survives arbitrary extra trailing characters with the same captured fields,
and every matching line begins with the literal `step:` (so a line with any
characters, even whitespace, before `step:` cannot match). -/
theorem match_start_anchored_only :
    (∀ cs g extra, matchLine cs = some g → matchLine (cs ++ extra) = some g) ∧
    (∀ cs g, matchLine cs = some g → cs.take 5 = litStep) := by
  constructor
  · intro cs g extra h
    obtain ⟨rest, haux⟩ := (matchLine_eq_some_iff cs g).mp h
    obtain ⟨hdec, hwf⟩ := matchAux_sound cs g rest haux
    subst hdec
    have h2 := matchAux_format g hwf (rest ++ extra)
    rw [List.append_assoc]
    simp [matchLine, h2]
  · intro cs g h
    obtain ⟨rest, haux⟩ := (matchLine_eq_some_iff cs g).mp h
    obtain ⟨hdec, hwf⟩ := matchAux_sound cs g rest haux
    subst hdec
    obtain ⟨g1, gT, g2, g3, g4⟩ := g
    simp [formatLine, litStep, List.append_assoc, List.take]

/-- Witness for C10: trailing junk is tolerated, and `line0` indeed starts
with the five characters `step:`. -/
theorem match_start_anchored_only_witness :
    matchLine (line0 ++ [' ', 'j', 'u', 'n', 'k']) = some g0 ∧ line0.take 5 = litStep :=
  ⟨match_start_anchored_only.1 line0 g0 [' ', 'j', 'u', 'n', 'k'] (by decide),
    match_start_anchored_only.2 line0 g0 (by decide)⟩

/-! ### Helper lemmas about the renderer -/

theorem mapExcept_ok_iff {α β : Type} (f : α → Except String β) (l : List α) (ys : List β) :
    mapExcept f l = .ok ys ↔ List.Forall₂ (fun a b => f a = .ok b) l ys := by
  induction l generalizing ys with
  | nil =>
    constructor
    · intro h
      simp only [mapExcept, Except.ok.injEq] at h
      subst h
      exact List.Forall₂.nil
    · intro h
      cases h
      rfl
  | cons a as ih =>
    constructor
    · intro h
      simp only [mapExcept] at h
      cases hf : f a with
      | error e => simp [hf] at h
      | ok b =>
        simp only [hf] at h
        cases hm : mapExcept f as with
        | error e => simp [hm] at h
        | ok bs =>
          simp only [hm, Except.ok.injEq] at h
          subst h
          exact List.Forall₂.cons hf ((ih bs).mp hm)
    · intro h
      cases h with
      | cons hf hrest => simp [mapExcept, hf, (ih _).mpr hrest]

theorem mapExcept_of_forall {α β : Type} (f : α → Except String β) (l : List α)
    (h : ∀ a ∈ l, ∃ b, f a = .ok b) : ∃ ys, mapExcept f l = .ok ys := by
  induction l with
  | nil => exact ⟨[], rfl⟩
  | cons a as ih =>
    obtain ⟨b, hb⟩ := h a (by simp)
    obtain ⟨bs, hbs⟩ := ih (fun x hx => h x (by simp [hx]))
    exact ⟨b :: bs, by simp [mapExcept, hb, hbs]⟩

theorem mapExcept_get {α β : Type} (f : α → Except String β) (l : List α) (ys : List β)
    (h : mapExcept f l = .ok ys) (i : Nat) (hi : i < l.length) (hy : i < ys.length) :
    f (l.get ⟨i, hi⟩) = .ok (ys.get ⟨i, hy⟩) :=
  ((mapExcept_ok_iff f l ys).mp h).get hi hy

theorem seriesVsSteps_ok (read : String → Option (List (List Char))) (pr : String × String)
    (pc : PlotCmd) (h : seriesVsSteps read pr = .ok pc) :
    ∃ lines steps losses times, read pr.1 = some lines ∧
      parseLogFile lines = .ok (steps, losses, times) ∧
      pc = ⟨steps.map Frac.ofN, losses, pr.2, 2⟩ := by
  unfold seriesVsSteps at h
  cases hr : read pr.1 with
  | none => simp [hr] at h
  | some lines =>
    simp only [hr] at h
    cases hp : parseLogFile lines with
    | error e => simp [hp] at h
    | ok t =>
      obtain ⟨steps, losses, times⟩ := t
      simp only [hp, Except.ok.injEq] at h
      exact ⟨lines, steps, losses, times, rfl, hp, h.symm⟩

theorem seriesVsTime_ok (read : String → Option (List (List Char))) (pr : String × String)
    (pc : PlotCmd) (h : seriesVsTime read pr = .ok pc) :
    ∃ lines steps losses times, read pr.1 = some lines ∧
      parseLogFile lines = .ok (steps, losses, times) ∧
      pc = ⟨times.map (fun t => t / (1000 * 60 * 60)), losses, pr.2, 2⟩ := by
  unfold seriesVsTime at h
  cases hr : read pr.1 with
  | none => simp [hr] at h
  | some lines =>
    simp only [hr] at h
    cases hp : parseLogFile lines with
    | error e => simp [hp] at h
    | ok t =>
      obtain ⟨steps, losses, times⟩ := t
      simp only [hp, Except.ok.injEq] at h
      exact ⟨lines, steps, losses, times, rfl, hp, h.symm⟩

theorem createPlots_ok (fsIn : FS) (read : String → Option (List (List Char)))
    (log_files labels : List String) (output_dir : String) (r : RunResult)
    (h : createPlots fsIn read log_files labels output_dir = .ok r) :
    ∃ ps1 ps2,
      mapExcept (seriesVsSteps read) (log_files.zip labels) = .ok ps1 ∧
      mapExcept (seriesVsTime read) (log_files.zip labels) = .ok ps2 ∧
      r = ⟨⟨(makedirs fsIn output_dir).dirs,
            setAssoc (setAssoc fsIn.images (chart1Of ps1 output_dir).path (chart1Of ps1 output_dir))
              (chart2Of ps2 output_dir).path (chart2Of ps2 output_dir)⟩,
          [(chart1Of ps1 output_dir).path, (chart2Of ps2 output_dir).path],
          chart1Of ps1 output_dir, chart2Of ps2 output_dir⟩ := by
  unfold createPlots at h
  cases h1 : mapExcept (seriesVsSteps read) (log_files.zip labels) with
  | error e => simp [h1] at h
  | ok ps1 =>
    simp only [h1] at h
    cases h2 : mapExcept (seriesVsTime read) (log_files.zip labels) with
    | error e => simp [h2] at h
    | ok ps2 =>
      simp only [h2, Except.ok.injEq] at h
      exact ⟨ps1, ps2, rfl, rfl, h.symm⟩

theorem zip_take_min {α β : Type} (as : List α) (bs : List β) :
    as.zip bs = (as.take (min as.length bs.length)).zip (bs.take (min as.length bs.length)) := by
  induction as generalizing bs with
  | nil => simp
  | cons a as ih =>
    cases bs with
    | nil => simp
    | cons b bs =>
      simp only [List.length_cons, Nat.succ_min_succ, List.take_succ_cons, List.zip_cons_cons]
      rw [← ih]

theorem zip_map_snd {α β : Type} (as : List α) (bs : List β) :
    (as.zip bs).map Prod.snd = bs.take (min as.length bs.length) := by
  induction as generalizing bs with
  | nil => simp
  | cons a as ih =>
    cases bs with
    | nil => simp
    | cons b bs =>
      simp [Nat.succ_min_succ, ih]

theorem forall₂_steps_labels (read : String → Option (List (List Char)))
    (prs : List (String × String)) (pcs : List PlotCmd)
    (h : List.Forall₂ (fun pr pc => seriesVsSteps read pr = .ok pc) prs pcs) :
    pcs.map PlotCmd.label = prs.map Prod.snd := by
  induction h with
  | nil => rfl
  | cons hf hrest ih =>
    obtain ⟨lines, steps, losses, times, -, -, rfl⟩ := seriesVsSteps_ok _ _ _ hf
    simp [ih]

theorem forall₂_time_labels (read : String → Option (List (List Char)))
    (prs : List (String × String)) (pcs : List PlotCmd)
    (h : List.Forall₂ (fun pr pc => seriesVsTime read pr = .ok pc) prs pcs) :
    pcs.map PlotCmd.label = prs.map Prod.snd := by
  induction h with
  | nil => rfl
  | cons hf hrest ih =>
    obtain ⟨lines, steps, losses, times, -, -, rfl⟩ := seriesVsTime_ok _ _ _ hf
    simp [ih]

theorem lookupAssoc_setAssoc_self (l : List (String × Chart)) (p : String) (c : Chart) :
    lookupAssoc (setAssoc l p c) p = some c := by
  induction l with
  | nil => simp [setAssoc, lookupAssoc]
  | cons hd tl ih =>
    obtain ⟨q, d⟩ := hd
    by_cases hq : q = p
    · simp [setAssoc, lookupAssoc, hq]
    · simp [setAssoc, lookupAssoc, hq, ih]

theorem lookupAssoc_setAssoc_other (l : List (String × Chart)) (p q : String) (c : Chart)
    (hpq : q ≠ p) : lookupAssoc (setAssoc l q c) p = lookupAssoc l p := by
  induction l with
  | nil => simp [setAssoc, lookupAssoc, hpq]
  | cons hd tl ih =>
    obtain ⟨q2, d⟩ := hd
    by_cases h2 : q2 = q
    · subst h2
      simp [setAssoc, lookupAssoc, hpq]
    · simp [setAssoc, lookupAssoc, h2, ih]

theorem setAssoc_eq_of_lookup (l : List (String × Chart)) (p : String) (c : Chart)
    (h : lookupAssoc l p = some c) : setAssoc l p c = l := by
  induction l with
  | nil => simp [lookupAssoc] at h
  | cons hd tl ih =>
    obtain ⟨q, d⟩ := hd
    by_cases hq : q = p
    · subst hq
      simp only [lookupAssoc, if_true] at h
      rw [Option.some.injEq] at h
      simp [setAssoc, h]
    · simp only [lookupAssoc, if_neg hq] at h
      simp [setAssoc, hq, ih h]

theorem mem_insertDir (ds : List String) (d x : String) (h : x ∈ ds) : x ∈ insertDir ds d := by
  unfold insertDir
  split
  · exact h
  · exact List.mem_append_left _ h

theorem mem_insertDir_self (ds : List String) (d : String) : d ∈ insertDir ds d := by
  unfold insertDir
  split
  next h => exact h
  next => exact List.mem_append_right _ (by simp)

theorem insertDir_eq_of_mem (ds : List String) (d : String) (h : d ∈ ds) : insertDir ds d = ds := by
  simp [insertDir, h]

theorem mem_foldl_insertDir (l : List String) (ds : List String) (x : String) (h : x ∈ ds) :
    x ∈ l.foldl insertDir ds := by
  induction l generalizing ds with
  | nil => exact h
  | cons a as ih => exact ih _ (mem_insertDir _ _ _ h)

theorem mem_foldl_insertDir_of_mem (l : List String) (ds : List String) (x : String) (h : x ∈ l) :
    x ∈ l.foldl insertDir ds := by
  induction l generalizing ds with
  | nil => simp at h
  | cons a as ih =>
    rcases List.mem_cons.mp h with rfl | h2
    · exact mem_foldl_insertDir as (insertDir ds x) x (mem_insertDir_self ds x)
    · exact ih (insertDir ds a) h2

theorem foldl_insertDir_eq (l : List String) (ds : List String) (h : ∀ x ∈ l, x ∈ ds) :
    l.foldl insertDir ds = ds := by
  induction l with
  | nil => rfl
  | cons a as ih =>
    rw [List.foldl_cons, insertDir_eq_of_mem _ _ (h a (by simp))]
    exact ih (fun x hx => h x (by simp [hx]))

theorem paths_ne (dir : String) :
    dir ++ "/validation_vs_steps.png" ≠ dir ++ "/validation_vs_time.png" := by
  intro he
  have hd : (dir ++ "/validation_vs_steps.png").data = (dir ++ "/validation_vs_time.png").data :=
    congrArg String.data he
  rw [String.data_append, String.data_append] at hd
  exact absurd (List.append_cancel_left hd) (by decide)

/-! ### The claims about the renderer -/

/-- C4: `create_plots` reads its inputs only through `zip(log_files, labels)`,
so on unequal-length lists it behaves exactly as on the lists truncated to the
first `min(m, n)` pairs (the excess elements are never consumed and cause no
failure), and on success each figure holds exactly `min(m, n)` curves, labelled
by the first `min(m, n)` labels, in both passes. -/
theorem zip_truncates :
    (∀ fsIn read files labels dir,
      createPlots fsIn read files labels dir =
        createPlots fsIn read (files.take (min files.length labels.length))
          (labels.take (min files.length labels.length)) dir) ∧
    (∀ fsIn read files labels dir r, createPlots fsIn read files labels dir = .ok r →
      r.chart1.plots.length = min files.length labels.length ∧
      r.chart2.plots.length = min files.length labels.length ∧
      r.chart1.plots.map PlotCmd.label = labels.take (min files.length labels.length) ∧
      r.chart2.plots.map PlotCmd.label = labels.take (min files.length labels.length)) := by
  constructor
  · intro fsIn read files labels dir
    have hz := zip_take_min files labels
    unfold createPlots
    rw [← hz]
  · intro fsIn read files labels dir r h
    obtain ⟨ps1, ps2, h1, h2, rfl⟩ := createPlots_ok _ _ _ _ _ _ h
    have hf1 := (mapExcept_ok_iff _ _ _).mp h1
    have hf2 := (mapExcept_ok_iff _ _ _).mp h2
    have hzlen : (files.zip labels).length = min files.length labels.length := List.length_zip ..
    have hlen1 : ps1.length = min files.length labels.length := by
      rw [← hf1.length_eq]
      exact hzlen
    have hlen2 : ps2.length = min files.length labels.length := by
      rw [← hf2.length_eq]
      exact hzlen
    have hlab1 : ps1.map PlotCmd.label = labels.take (min files.length labels.length) := by
      rw [forall₂_steps_labels _ _ _ hf1, zip_map_snd]
    have hlab2 : ps2.map PlotCmd.label = labels.take (min files.length labels.length) := by
      rw [forall₂_time_labels _ _ _ hf2, zip_map_snd]
    exact ⟨hlen1, hlen2, hlab1, hlab2⟩

/-- Witness for C4 on a 2-file, 1-label call: only the paired file is
processed and the run succeeds even though the second file does not exist. -/
theorem zip_truncates_witness :
    createPlots fs0 read0 ["a.txt", "b.txt"] ["A"] "out" =
      createPlots fs0 read0 (["a.txt", "b.txt"].take (min 2 1)) (["A"].take (min 2 1)) "out" ∧
    (r0.chart1.plots.length = min 2 1 ∧ r0.chart2.plots.length = min 2 1 ∧
      r0.chart1.plots.map PlotCmd.label = ["A"].take (min 2 1) ∧
      r0.chart2.plots.map PlotCmd.label = ["A"].take (min 2 1)) :=
  ⟨zip_truncates.1 fs0 read0 ["a.txt", "b.txt"] ["A"] "out",
    zip_truncates.2 fs0 read0 ["a.txt", "b.txt"] ["A"] "out" r0 (by decide)⟩

/-- C5: whenever every paired log file is readable and parses, `create_plots`
succeeds and writes exactly two image files, at
`<output_dir>/validation_vs_steps.png` and `<output_dir>/validation_vs_time.png`
(in that order), whatever the lengths of the parsed series; omitting the
directory argument is the same call with `"plots"`. -/
theorem writes_two_files (fsIn : FS) (read : String → Option (List (List Char)))
    (files labels : List String) (dir : String)
    (h : ∀ pr ∈ files.zip labels, ∃ lines x, read pr.1 = some lines ∧
      parseLogFile lines = .ok x) :
    (createPlots fsIn read files labels dir).map RunResult.writes =
      .ok [dir ++ "/validation_vs_steps.png", dir ++ "/validation_vs_time.png"] ∧
    createPlots fsIn read files labels = createPlots fsIn read files labels ("plots") := by
  refine ⟨?_, rfl⟩
  obtain ⟨ps1, h1⟩ : ∃ ps1, mapExcept (seriesVsSteps read) (files.zip labels) = .ok ps1 := by
    apply mapExcept_of_forall
    intro pr hpr
    obtain ⟨lines, x, hr, hp⟩ := h pr hpr
    obtain ⟨steps, losses, times⟩ := x
    exact ⟨⟨steps.map Frac.ofN, losses, pr.2, 2⟩, by simp [seriesVsSteps, hr, hp]⟩
  obtain ⟨ps2, h2⟩ : ∃ ps2, mapExcept (seriesVsTime read) (files.zip labels) = .ok ps2 := by
    apply mapExcept_of_forall
    intro pr hpr
    obtain ⟨lines, x, hr, hp⟩ := h pr hpr
    obtain ⟨steps, losses, times⟩ := x
    exact ⟨⟨times.map (fun t => t / (1000 * 60 * 60)), losses, pr.2, 2⟩,
      by simp [seriesVsTime, hr, hp]⟩
  simp [createPlots, h1, h2, chart1Of, chart2Of, Except.map]

/-- Witness for C5 on the one-file fixture. -/
theorem writes_two_files_witness :
    (createPlots fs0 read0 ["a.txt"] ["A"] "out").map RunResult.writes =
      .ok ["out" ++ "/validation_vs_steps.png", "out" ++ "/validation_vs_time.png"] ∧
    createPlots fs0 read0 ["a.txt"] ["A"] = createPlots fs0 read0 ["a.txt"] ["A"] ("plots") :=
  writes_two_files fs0 read0 ["a.txt"] ["A"] "out" (by
    intro pr hpr
    have hpr2 : pr = ("a.txt", "A") := by simpa using hpr
    subst hpr2
    exact ⟨[line0], ([100], [⟨345, 100⟩], [⟨50000, 10⟩]), by decide, by decide⟩)

/-- C6: in the second chart every x value is the parsed cumulative time divided
by exactly 3,600,000 (milliseconds to hours), and the y values are the parsed
losses unchanged, curve by curve. -/
theorem time_axis_is_hours (fsIn : FS) (read : String → Option (List (List Char)))
    (files labels : List String) (dir : String) (r : RunResult) (i : Nat)
    (lines : List (List Char)) (steps : List Nat) (losses times : List Frac)
    (h : createPlots fsIn read files labels dir = .ok r)
    (hi : i < (files.zip labels).length)
    (hlen : i < r.chart2.plots.length)
    (hread : read ((files.zip labels).get ⟨i, hi⟩).1 = some lines)
    (hparse : parseLogFile lines = .ok (steps, losses, times)) :
    (r.chart2.plots.get ⟨i, hlen⟩).xs = times.map (fun t => t / 3600000) ∧
    (r.chart2.plots.get ⟨i, hlen⟩).ys = losses ∧
    (r.chart2.plots.get ⟨i, hlen⟩).label = ((files.zip labels).get ⟨i, hi⟩).2 := by
  have h36 : (fun t : Frac => t / (1000 * 60 * 60)) = (fun t : Frac => t / 3600000) := by
    funext t
    have he : (1000 * 60 * 60 : Frac) = 3600000 := by decide
    rw [he]
  obtain ⟨ps1, ps2, h1, h2, rfl⟩ := createPlots_ok _ _ _ _ _ _ h
  have hg := mapExcept_get _ _ _ h2 i hi (by simpa [chart2Of] using hlen)
  simp only [seriesVsTime, hread, hparse, Except.ok.injEq] at hg
  simp only [List.get_eq_getElem] at hg
  refine ⟨?_, ?_, ?_⟩ <;> simp [chart2Of, ← hg, h36]

/-- Witness for C6 on the one-file fixture (time 5000 ms becomes 5000/3600000
hours). -/
theorem time_axis_is_hours_witness :
    (r0.chart2.plots.get ⟨0, by decide⟩).xs = [(⟨50000, 10⟩ : Frac)].map (fun t => t / 3600000) ∧
    (r0.chart2.plots.get ⟨0, by decide⟩).ys = [(⟨345, 100⟩ : Frac)] ∧
    (r0.chart2.plots.get ⟨0, by decide⟩).label = ((["a.txt"].zip ["A"]).get ⟨0, by decide⟩).2 :=
  time_axis_is_hours fs0 read0 ["a.txt"] ["A"] "out" r0 0 [line0] [100] [⟨345, 100⟩]
    [⟨50000, 10⟩] (by decide) (by decide) (by decide) (by decide) (by decide)

/-- C7: running `create_plots` again with the same inputs and output directory
succeeds and leaves everything as after the first run - the two images are
overwritten in place (same two paths, no accumulation) and directory creation
is idempotent, parents included (`makedirs` on the resulting state is the
identity). -/
theorem rerun_overwrites (fsIn : FS) (read : String → Option (List (List Char)))
    (files labels : List String) (dir : String) (r : RunResult)
    (h : createPlots fsIn read files labels dir = .ok r) :
    createPlots r.fs read files labels dir = .ok r ∧ makedirs r.fs dir = r.fs := by
  obtain ⟨ps1, ps2, h1, h2, rfl⟩ := createPlots_ok _ _ _ _ _ _ h
  have hne : (chart2Of ps2 dir).path ≠ (chart1Of ps1 dir).path := (paths_ne dir).symm
  have hdirs : ∀ x ∈ dirChain dir, x ∈ (makedirs fsIn dir).dirs :=
    fun x hx => mem_foldl_insertDir_of_mem _ _ _ hx
  have hmk : makedirs (⟨(makedirs fsIn dir).dirs,
      setAssoc (setAssoc fsIn.images (chart1Of ps1 dir).path (chart1Of ps1 dir))
        (chart2Of ps2 dir).path (chart2Of ps2 dir)⟩ : FS) dir =
      ⟨(makedirs fsIn dir).dirs,
        setAssoc (setAssoc fsIn.images (chart1Of ps1 dir).path (chart1Of ps1 dir))
          (chart2Of ps2 dir).path (chart2Of ps2 dir)⟩ := by
    unfold makedirs
    simp only [FS.mk.injEq, and_true]
    exact foldl_insertDir_eq _ _ hdirs
  refine ⟨?_, hmk⟩
  have hl1 : lookupAssoc (setAssoc (setAssoc fsIn.images (chart1Of ps1 dir).path
      (chart1Of ps1 dir)) (chart2Of ps2 dir).path (chart2Of ps2 dir))
      (chart1Of ps1 dir).path = some (chart1Of ps1 dir) := by
    rw [lookupAssoc_setAssoc_other _ _ _ _ hne]
    exact lookupAssoc_setAssoc_self _ _ _
  have hl2 : lookupAssoc (setAssoc (setAssoc fsIn.images (chart1Of ps1 dir).path
      (chart1Of ps1 dir)) (chart2Of ps2 dir).path (chart2Of ps2 dir))
      (chart2Of ps2 dir).path = some (chart2Of ps2 dir) :=
    lookupAssoc_setAssoc_self _ _ _
  simp only [createPlots, h1, h2]
  rw [congrArg FS.dirs hmk]
  dsimp only [makedirs]
  rw [setAssoc_eq_of_lookup _ _ _ hl1, setAssoc_eq_of_lookup _ _ _ hl2]

/-- Witness for C7 on the one-file fixture. -/
theorem rerun_overwrites_witness :
    createPlots r0.fs read0 ["a.txt"] ["A"] "out" = .ok r0 ∧ makedirs r0.fs "out" = r0.fs :=
  rerun_overwrites fs0 read0 ["a.txt"] ["A"] "out" r0 (by decide)

/-- C8: both charts draw their horizontal threshold line at the same constant
loss value 3.28; the two lines differ only in visual style - color (grey
versus red) and linewidth (2 versus default) - never in value, and share the
dotted linestyle. -/
theorem threshold_line_same_value (fsIn : FS) (read : String → Option (List (List Char)))
    (files labels : List String) (dir : String) (r : RunResult)
    (h : createPlots fsIn read files labels dir = .ok r) :
    r.chart1.hline.y = r.chart2.hline.y ∧ r.chart1.hline.y = 3.28 ∧
    r.chart1.hline.color = "grey" ∧ r.chart2.hline.color = "r" ∧
    r.chart1.hline.color ≠ r.chart2.hline.color ∧
    r.chart1.hline.linestyle = r.chart2.hline.linestyle ∧
    r.chart1.hline.linewidth = some 2 ∧ r.chart2.hline.linewidth = none := by
  obtain ⟨ps1, ps2, -, -, rfl⟩ := createPlots_ok _ _ _ _ _ _ h
  exact ⟨rfl, rfl, rfl, rfl, (by decide : ("grey" : String) ≠ "r"), rfl, rfl, rfl⟩

/-- Witness for C8 on the one-file fixture. -/
theorem threshold_line_same_value_witness :
    r0.chart1.hline.y = r0.chart2.hline.y ∧ r0.chart1.hline.y = 3.28 ∧
    r0.chart1.hline.color = "grey" ∧ r0.chart2.hline.color = "r" ∧
    r0.chart1.hline.color ≠ r0.chart2.hline.color ∧
    r0.chart1.hline.linestyle = r0.chart2.hline.linestyle ∧
    r0.chart1.hline.linewidth = some 2 ∧ r0.chart2.hline.linewidth = none :=
  threshold_line_same_value fs0 read0 ["a.txt"] ["A"] "out" r0 (by decide)

end Plotter
